import Mathlib

/-!
Shallow embedding of `model/downstream.py`: the three task heads
`ClozeModel`, `VerbalizerModel` and `PoolingModel` layered on an external
language-model collaborator.  Tensors are nested lists of exact rationals
(`ℚ` abstracts the engine's finite floats); the collaborator and the
engine's transcendental routines (`log_softmax`, float `**`, `tanh`) are
abstract function fields; Python exceptions are `Except PyErr`.
-/

/-- Runtime errors a `forward` call can surface: Python `assert` failures,
`raise NotImplementedError`, and errors raised inside the external
language-model collaborator (tagged with a numeric code so that distinct
collaborator failures stay distinguishable). -/
inductive PyErr where
  | assertionError : PyErr
  | notImplementedError : PyErr
  | external : ℕ → PyErr
deriving DecidableEq

/-- Result scalar of a score computation: a finite value (exact rational,
abstracting the engine's finite floats), or a non-finite float (`inf`,
`-inf` or `nan`, collapsed into one marker) as produced by dividing a
finite float by zero. -/
inductive Flt where
  | fin : ℚ → Flt
  | nonfinite : Flt
deriving DecidableEq

/-- Division as the tensor engine performs it on finite operands: a zero
divisor yields a non-finite float, never an exception. -/
def fltDiv (a b : ℚ) : Flt := if b = 0 then Flt.nonfinite else Flt.fin (a / b)

/-- Indexing one tensor dimension with a (possibly negative) integer index,
with the engine's wrap-around semantics: `-1` denotes the last element.
An out-of-range index returns the default `d` (the engine would raise;
theorems only exercise in-range indices). -/
def tindex {α : Type} (xs : List α) (d : α) (i : ℤ) : α :=
  if 0 ≤ i ∧ i < (xs.length : ℤ) then xs.getD i.toNat d
  else if i < 0 ∧ 0 ≤ i + (xs.length : ℤ) then xs.getD (i + (xs.length : ℤ)).toNat d
  else d

/-- `view(-1, c)` applied to a flattened list: rows of length `c`. -/
def view2 {α : Type} (c : ℕ) (l : List α) : List (List α) :=
  (List.range (l.length / c)).map fun b => (l.drop (b * c)).take c

/-- Column `c` of a nested list (the slice `[:, c]`), used to score one
choice of a multi-choice batch independently. -/
def col {α : Type} (c : ℕ) (d : α) (xss : List (List α)) : List α :=
  xss.map fun xs => xs.getD c d

/-- Pointwise zip of three lists, truncating at the shortest. -/
def zipWith3 {α β γ ε : Type} (f : α → β → γ → ε) : List α → List β → List γ → List ε
  | x :: xs, y :: ys, z :: zs => f x y z :: zipWith3 f xs ys zs
  | _, _, _ => []

/-- `torch.nn.Linear` applied to one row: `W x + b`, one output per row of
`W`, zipped with the bias vector. -/
def linear (w : List (List ℚ)) (b : List ℚ) (x : List ℚ) : List ℚ :=
  List.zipWith (fun wrow bi => (List.zipWith (fun a c => a * c) wrow x).sum + bi) w b

/-- `ClozeModel`: `model` is the external language model, returning
per-position vocabulary rows plus auxiliary state, or an error it raises
itself.  `log_softmax` and `fpow` stand for the engine's `log_softmax`
over the vocabulary dimension and float `**` at exponent `length_penalty`
(external numeric routines, kept abstract like the model itself).
`α` is the type of `attention_mask` (opaque to this component),
`μ` the element type of the auxiliary state. -/
structure ClozeModel (α μ : Type) where
  model : List (List ℤ) → List (List ℤ) → α → Except PyErr (List (List (List ℚ)) × List μ)
  take_softmax : Bool
  length_penalty : ℚ
  log_softmax : List ℚ → List ℚ
  fpow : ℚ → ℚ → ℚ

/-- Optional `log_softmax` over the vocabulary (innermost) dimension:
`if self.take_softmax: outputs = F.log_softmax(outputs, dim=-1)`. -/
def ClozeModel.softmaxStep {α μ : Type} (m : ClozeModel α μ)
    (outputs : List (List (List ℚ))) : List (List (List ℚ)) :=
  if m.take_softmax then outputs.map (fun row => row.map m.log_softmax) else outputs

/-- Advanced-index gather for one batch row, following the expanded
`seq_ids`/`target_ids` pairing: entry `p` is `orow[p][trow[p]]`. -/
def gatherRow (orow : List (List ℚ)) (trow : List ℤ) : List ℚ :=
  (List.range trow.length).map fun p => tindex (orow.getD p []) 0 (trow.getD p 0)

/-- `outputs[batch_ids, seq_ids, target_ids]` with `batch_ids` and `seq_ids`
the expanded `arange`s of the source: row `r`, position `p` holds
`outputs[r][p][target_ids[r][p]]`. -/
def gatherLogits (outputs : List (List (List ℚ))) (target_ids : List (List ℤ)) :
    List (List ℚ) :=
  (List.range target_ids.length).map fun r =>
    gatherRow (outputs.getD r []) (target_ids.getD r [])

/-- `(logits * logit_mask).sum(dim=1)`. -/
def maskedSums (g k : List (List ℚ)) : List ℚ :=
  List.zipWith (fun gr kr => (List.zipWith (fun a b => a * b) gr kr).sum) g k

/-- Length-penalty step: `logits / logit_mask.sum(dim=1) ** length_penalty`,
applied only when `length_penalty > 0.0`.  The float division of a finite
score by a zero divisor yields a non-finite float, not an exception. -/
def applyPenalty (lp : ℚ) (fpow : ℚ → ℚ → ℚ) (scores : List ℚ)
    (logit_mask : List (List ℚ)) : List Flt :=
  if 0 < lp then
    List.zipWith (fun s kr => fltDiv s (fpow kr.sum lp)) scores logit_mask
  else scores.map Flt.fin

/-- Score pipeline of `ClozeModel.forward` after the model call:
optional log-softmax, gather, mask-and-sum, optional length penalty. -/
def ClozeModel.scores {α μ : Type} (m : ClozeModel α μ)
    (outputs : List (List (List ℚ))) (target_ids : List (List ℤ))
    (logit_mask : List (List ℚ)) : List Flt :=
  applyPenalty m.length_penalty m.fpow
    (maskedSums (gatherLogits (m.softmaxStep outputs) target_ids) logit_mask) logit_mask

/-- `ClozeModel.forward` on 2-D inputs (the `num_choices = None` path). -/
def ClozeModel.forward2 {α μ : Type} (m : ClozeModel α μ)
    (input_ids position_ids : List (List ℤ)) (attention_mask : α)
    (target_ids : List (List ℤ)) (logit_mask : List (List ℚ)) :
    Except PyErr (List Flt × List μ) := do
  let (outputs, mems) ← m.model input_ids position_ids attention_mask
  return (m.scores outputs target_ids logit_mask, mems)

/-- `ClozeModel.forward` on 3-D inputs `[B, C, L]`: flattens the choice
dimension into the batch dimension (`reshape(-1, ...)` on the outer two
dims is `List.flatten`), runs the 2-D pipeline, and reinstates the choice
dimension with `view(-1, num_choices)`. -/
def ClozeModel.forward3 {δ μ : Type} (m : ClozeModel (List δ) μ)
    (input_ids position_ids : List (List (List ℤ)))
    (attention_mask : List (List δ)) (target_ids : List (List (List ℤ)))
    (logit_mask : List (List (List ℚ))) :
    Except PyErr (List (List Flt) × List μ) := do
  let num_choices := (input_ids.headD []).length
  let r ← m.forward2 input_ids.flatten position_ids.flatten attention_mask.flatten
      target_ids.flatten logit_mask.flatten
  return (view2 num_choices r.1, r.2)

/-- 2-D / 3-D `input_ids`, mirroring the source's dynamic rank branch on
`len(input_ids.shape)`. -/
inductive IdsTensor where
  | d2 : List (List ℤ) → IdsTensor
  | d3 : List (List (List ℤ)) → IdsTensor

/-- `VerbalizerModel`: a bare wrapper around the language model. -/
structure VerbalizerModel (μ : Type) where
  model : List (List ℤ) → List (List ℤ) → List ℤ → Except PyErr (List (List (List ℚ)) × List μ)

/-- Gather stage of `VerbalizerModel.forward`: pick, per batch row `r`, the
output distribution at sequence position `attention_mask[r]`
(`outputs[batch_ids, attention_mask]`), then from that distribution the
value at each candidate index of `target_ids[r]`
(`output[batch_ids, target_ids]`). -/
def verbOutput (outputs : List (List (List ℚ))) (attention_mask : List ℤ)
    (target_ids : List (List ℤ)) : List (List ℚ) :=
  let picked := (List.range outputs.length).map fun r =>
    tindex (outputs.getD r []) [] (attention_mask.getD r 0)
  (List.range target_ids.length).map fun r =>
    (List.range ((target_ids.getD r []).length)).map fun j =>
      tindex (picked.getD r []) 0 ((target_ids.getD r []).getD j 0)

/-- `VerbalizerModel.forward`.  `attention_mask` is used as a per-row
position index (not a boolean mask); `logit_mask` is accepted and ignored.
The leading `assert len(input_ids.shape) == 2` fails on a 3-D input before
the model is called. -/
def VerbalizerModel.forward {μ : Type} (m : VerbalizerModel μ)
    (input_ids : IdsTensor) (position_ids : List (List ℤ))
    (attention_mask : List ℤ) (target_ids : List (List ℤ))
    (logit_mask : List (List ℚ)) : Except PyErr (List (List ℚ) × List μ) :=
  match input_ids with
  | .d3 _ => Except.error PyErr.assertionError
  | .d2 rows => do
    let (outputs, mems) ← m.model rows position_ids attention_mask
    return (verbOutput outputs attention_mask target_ids, mems)

/-- `PoolingModel`: language model plus a learned two-layer head.  `tanh`
is the engine's hyperbolic tangent (abstract transcendental routine);
`dropout_mask` is the realized multiplicative dropout mask of this call
(all ones in eval mode). -/
structure PoolingModel (μ : Type) where
  model : List (List ℤ) → List (List ℤ) → List ℤ → Except PyErr (List (List (List ℚ)) × List μ)
  pool_token : String
  num_class : ℕ
  pool_layer_w : List (List ℚ)
  pool_layer_b : List ℚ
  head_w : List (List ℚ)
  head_b : List ℚ
  tanh : ℚ → ℚ
  dropout_mask : List (List ℚ)

/-- `start` pooling: row `r` of `outputs` at position `attention_mask[r]`. -/
def startPooled (outputs : List (List (List ℚ))) (attention_mask : List ℤ) :
    List (List ℚ) :=
  (List.range outputs.length).map fun r =>
    tindex (outputs.getD r []) [] (attention_mask.getD r 0)

/-- `pad` pooling: row `r` of `outputs` at position `attention_mask[r] - 1`. -/
def padPooled (outputs : List (List (List ℚ))) (attention_mask : List ℤ) :
    List (List ℚ) :=
  (List.range outputs.length).map fun r =>
    tindex (outputs.getD r []) [] (attention_mask.getD r 0 - 1)

/-- `cls` pooling: `outputs[:, 0]`, position 0 for every row. -/
def clsPooled (outputs : List (List (List ℚ))) : List (List ℚ) :=
  outputs.map fun row => row.getD 0 []

/-- Pool-token branch of `PoolingModel.forward` (the `if/elif/else` chain):
`start` and `pad` index each row of `outputs` at `attention_mask[row]`
resp. `attention_mask[row] - 1`; `cls` takes `outputs[:, 0]`; anything
else raises `NotImplementedError`. -/
def poolSelect (pool_token : String) (outputs : List (List (List ℚ)))
    (attention_mask : List ℤ) : Except PyErr (List (List ℚ)) :=
  if pool_token = "start" then Except.ok (startPooled outputs attention_mask)
  else if pool_token = "pad" then Except.ok (padPooled outputs attention_mask)
  else if pool_token = "cls" then Except.ok (clsPooled outputs)
  else Except.error PyErr.notImplementedError

/-- Classification head: `tanh(pool_layer(x))`, dropout (elementwise
multiply by the realized mask), then `multichoice_head`. -/
def PoolingModel.head {μ : Type} (m : PoolingModel μ) (pooled : List (List ℚ)) :
    List (List ℚ) :=
  let output := pooled.map fun row => (linear m.pool_layer_w m.pool_layer_b row).map m.tanh
  let mo := List.zipWith (List.zipWith (fun a b => a * b)) output m.dropout_mask
  mo.map (linear m.head_w m.head_b)

/-- 2-D / 3-D input bundle for `PoolingModel.forward` (the shapes of
`position_ids` and `attention_mask` track the rank of `input_ids`). -/
inductive PoolIn where
  | two : List (List ℤ) → List (List ℤ) → List ℤ → PoolIn
  | three : List (List (List ℤ)) → List (List (List ℤ)) → List (List ℤ) → PoolIn

/-- `PoolingModel.forward`.  On a 3-D input the `assert self.num_class == 1`
fires before the flatten and the model call; the logits of the flattened
batch are reshaped back with `view(-1, num_choices)`. -/
def PoolingModel.forward {μ : Type} (m : PoolingModel μ) (inp : PoolIn) :
    Except PyErr (List (List ℚ) × List μ) :=
  match inp with
  | .two input_ids position_ids attention_mask =>
    match m.model input_ids position_ids attention_mask with
    | .error e => .error e
    | .ok (outputs, mems) =>
      match poolSelect m.pool_token outputs attention_mask with
      | .error e => .error e
      | .ok pooled => .ok (m.head pooled, mems)
  | .three input_ids position_ids attention_mask =>
    if m.num_class = 1 then
      match m.model input_ids.flatten position_ids.flatten attention_mask.flatten with
      | .error e => .error e
      | .ok (outputs, mems) =>
        match poolSelect m.pool_token outputs attention_mask.flatten with
        | .error e => .error e
        | .ok pooled =>
          .ok (view2 ((input_ids.headD []).length) (m.head pooled).flatten, mems)
    else .error PyErr.assertionError

/-- Per-row score of the cloze pipeline: the whole computation for one
batch row, used to express that scoring is row-independent. -/
def ClozeModel.rowScore {α μ : Type} (m : ClozeModel α μ) (orow : List (List ℚ))
    (trow : List ℤ) (krow : List ℚ) : Flt :=
  let srow := if m.take_softmax then orow.map m.log_softmax else orow
  let s := (List.zipWith (fun a b => a * b) (gatherRow srow trow) krow).sum
  if 0 < m.length_penalty then fltDiv s (m.fpow krow.sum m.length_penalty)
  else Flt.fin s

theorem getD_of_map {α β : Type} (f : α → β) (l : List α) (n : ℕ) (d : β) (d0 : α)
    (h : n < l.length) : (l.map f).getD n d = f (l.getD n d0) := by
  simp [List.getD_eq_getElem?_getD, List.getElem?_map, List.getElem?_eq_getElem h,
    List.getD_eq_getElem l d0 h]

theorem getD_of_zipWith {α β γ : Type} (f : α → β → γ) (xs : List α) (ys : List β)
    (n : ℕ) (d : γ) (dx : α) (dy : β) (hx : n < xs.length) (hy : n < ys.length) :
    (List.zipWith f xs ys).getD n d = f (xs.getD n dx) (ys.getD n dy) := by
  have h : n < (List.zipWith f xs ys).length := by
    rw [List.length_zipWith]; omega
  rw [List.getD_eq_getElem _ _ h, List.getElem_zipWith,
    List.getD_eq_getElem xs dx hx, List.getD_eq_getElem ys dy hy]

theorem getD_range_map {β : Type} (f : ℕ → β) (n m : ℕ) (d : β) (h : n < m) :
    ((List.range m).map f).getD n d = f n := by
  simp [List.getD_eq_getElem?_getD, List.getElem?_map, List.getElem?_range h]

theorem length_zipWith3 {α β γ ε : Type} (f : α → β → γ → ε) (xs : List α)
    (ys : List β) (zs : List γ) :
    (zipWith3 f xs ys zs).length = min xs.length (min ys.length zs.length) := by
  induction xs generalizing ys zs with
  | nil => simp [zipWith3]
  | cons x xt ih =>
    cases ys with
    | nil => simp [zipWith3]
    | cons y yt =>
      cases zs with
      | nil => simp [zipWith3]
      | cons z zt => simp [zipWith3, ih]; omega

theorem getD_zipWith3 {α β γ ε : Type} (f : α → β → γ → ε) (xs : List α)
    (ys : List β) (zs : List γ) (n : ℕ) (d : ε) (dx : α) (dy : β) (dz : γ)
    (hx : n < xs.length) (hy : n < ys.length) (hz : n < zs.length) :
    (zipWith3 f xs ys zs).getD n d = f (xs.getD n dx) (ys.getD n dy) (zs.getD n dz) := by
  induction xs generalizing ys zs n with
  | nil => simp at hx
  | cons x xt ih =>
    cases ys with
    | nil => simp at hy
    | cons y yt =>
      cases zs with
      | nil => simp at hz
      | cons z zt =>
        cases n with
        | zero => simp [zipWith3]
        | succ k =>
          simp only [zipWith3, List.getD_cons_succ]
          exact ih yt zt k (by simpa using hx) (by simpa using hy) (by simpa using hz)

theorem tindex_nonneg {α : Type} (xs : List α) (d : α) (i : ℤ) (h0 : 0 ≤ i)
    (h1 : i < (xs.length : ℤ)) : tindex xs d i = xs.getD i.toNat d := by
  simp [tindex, h0, h1]

theorem getD_length_sub_one {α : Type} (xs : List α) (d : α) (h : xs ≠ []) :
    xs.getD (xs.length - 1) d = xs.getLastD d := by
  have hl : 0 < xs.length := List.length_pos.mpr h
  rw [List.getD_eq_getElem _ _ (by omega), List.getLastD_eq_getLast? ,
    List.getLast?_eq_getLast xs h]
  simp [List.getLast_eq_getElem]

theorem tindex_neg_one {α : Type} (xs : List α) (d : α) (h : xs ≠ []) :
    tindex xs d (-1) = xs.getLastD d := by
  have hl : 0 < xs.length := List.length_pos.mpr h
  have h1 : ¬ (0 ≤ (-1 : ℤ) ∧ (-1 : ℤ) < (xs.length : ℤ)) := by omega
  have h2 : ((-1 : ℤ) < 0 ∧ 0 ≤ (-1 : ℤ) + (xs.length : ℤ)) := by omega
  have h3 : ((-1 : ℤ) + (xs.length : ℤ)).toNat = xs.length - 1 := by omega
  rw [tindex, if_neg h1, if_pos h2, h3, getD_length_sub_one xs d h]

theorem length_flatten_rect {α : Type} (xss : List (List α)) (c : ℕ)
    (h : ∀ row ∈ xss, row.length = c) : xss.flatten.length = xss.length * c := by
  induction xss with
  | nil => simp
  | cons x xt ih =>
    simp only [List.flatten_cons, List.length_append, List.length_cons]
    rw [h x (by simp), ih (fun r hr => h r (by simp [hr]))]
    ring

theorem getD_flatten_rect {α : Type} (xss : List (List α)) (c : ℕ) (d : α)
    (h : ∀ row ∈ xss, row.length = c) (b i : ℕ) (hb : b < xss.length) (hi : i < c) :
    xss.flatten.getD (b * c + i) d = (xss.getD b []).getD i d := by
  induction xss generalizing b with
  | nil => simp at hb
  | cons x xt ih =>
    have hx : x.length = c := h x (by simp)
    cases b with
    | zero =>
      simp only [List.flatten_cons, List.getD_cons_zero, Nat.zero_mul, Nat.zero_add]
      rw [List.getD_eq_getElem?_getD, List.getElem?_append, if_pos (by omega),
        ← List.getD_eq_getElem?_getD]
    | succ b' =>
      have harith : (b' + 1) * c + i = x.length + (b' * c + i) := by rw [hx]; ring
      simp only [List.flatten_cons, List.getD_cons_succ]
      rw [harith, List.getD_eq_getElem?_getD, List.getElem?_append, if_neg (by omega)]
      have : x.length + (b' * c + i) - x.length = b' * c + i := by omega
      rw [this, ← List.getD_eq_getElem?_getD,
        ih (fun r hr => h r (by simp [hr])) b' (by simpa using hb)]

theorem headD_length_rect {α : Type} (xss : List (List α)) (c : ℕ)
    (h : ∀ row ∈ xss, row.length = c) (hpos : 0 < xss.length) :
    (xss.headD []).length = c := by
  cases xss with
  | nil => simp at hpos
  | cons x xt => exact h x (by simp)

theorem view2_length {α : Type} (c : ℕ) (l : List α) :
    (view2 c l).length = l.length / c := by
  simp [view2]

theorem view2_row_length {α : Type} (c : ℕ) (l : List α) (b : ℕ)
    (hb : b < l.length / c) : ((view2 c l).getD b []).length = c := by
  rw [view2, getD_range_map _ _ _ _ hb, List.length_take, List.length_drop]
  have h1 : (b + 1) * c ≤ (l.length / c) * c := Nat.mul_le_mul_right c hb
  have h2 : (l.length / c) * c ≤ l.length := Nat.div_mul_le_self _ _
  have h3 : b * c + c ≤ l.length := by
    rw [Nat.succ_mul] at h1; omega
  omega

theorem view2_getD_getD {α : Type} (c : ℕ) (l : List α) (b i : ℕ) (d : α)
    (hb : b < l.length / c) (hi : i < c) :
    ((view2 c l).getD b []).getD i d = l.getD (b * c + i) d := by
  rw [view2, getD_range_map _ _ _ _ hb]
  rw [List.getD_eq_getElem?_getD, List.getElem?_take, if_pos hi, List.getElem?_drop,
    ← List.getD_eq_getElem?_getD]

theorem sum_zipWith_mul (xs ys : List ℚ) (h : xs.length = ys.length) :
    (List.zipWith (fun a b => a * b) xs ys).sum
      = ((List.range ys.length).map fun p => ys.getD p 0 * xs.getD p 0).sum := by
  induction xs generalizing ys with
  | nil =>
    cases ys with
    | nil => simp
    | cons y yt => simp at h
  | cons x xt ih =>
    cases ys with
    | nil => simp at h
    | cons y yt =>
      simp only [List.zipWith_cons_cons, List.sum_cons, List.length_cons,
        List.range_succ_eq_map, List.map_cons, List.map_map]
      rw [ih yt (by simpa using h)]
      simp only [List.getD_cons_zero, Function.comp_def, List.getD_cons_succ,
        List.sum_cons]
      ring

theorem length_gatherLogits (o : List (List (List ℚ))) (t : List (List ℤ)) :
    (gatherLogits o t).length = t.length := by
  simp [gatherLogits]

theorem length_maskedSums (g k : List (List ℚ)) :
    (maskedSums g k).length = min g.length k.length := by
  simp [maskedSums, List.length_zipWith]

theorem length_scores {α μ : Type} (m : ClozeModel α μ) (o : List (List (List ℚ)))
    (t : List (List ℤ)) (k : List (List ℚ)) (hk : k.length = t.length) :
    (m.scores o t k).length = t.length := by
  rw [ClozeModel.scores, applyPenalty]
  by_cases hp : 0 < m.length_penalty
  · rw [if_pos hp, List.length_zipWith, length_maskedSums, length_gatherLogits, hk]
    omega
  · rw [if_neg hp, List.length_map, length_maskedSums, length_gatherLogits, hk]
    omega

theorem scores_getD {α μ : Type} (m : ClozeModel α μ) (o : List (List (List ℚ)))
    (t : List (List ℤ)) (k : List (List ℚ)) (r : ℕ)
    (ho : o.length = t.length) (hk : k.length = t.length) (hr : r < t.length) :
    (m.scores o t k).getD r Flt.nonfinite
      = m.rowScore (o.getD r []) (t.getD r []) (k.getD r []) := by
  have hms : (maskedSums (gatherLogits (m.softmaxStep o) t) k).getD r 0
      = (List.zipWith (fun a b => a * b)
          (gatherRow ((m.softmaxStep o).getD r []) (t.getD r [])) (k.getD r [])).sum := by
    rw [maskedSums, getD_of_zipWith _ _ _ _ _ [] []
      (by rw [length_gatherLogits]; exact hr) (by omega)]
    rw [gatherLogits, getD_range_map _ _ _ _ hr]
  have hsoft : (m.softmaxStep o).getD r []
      = (if m.take_softmax then (o.getD r []).map m.log_softmax else o.getD r []) := by
    rw [ClozeModel.softmaxStep]
    by_cases hts : m.take_softmax
    · rw [if_pos hts, if_pos hts, getD_of_map _ _ _ _ [] (by omega)]
    · rw [if_neg hts, if_neg hts]
  rw [ClozeModel.scores, ClozeModel.rowScore, applyPenalty]
  by_cases hp : 0 < m.length_penalty
  · rw [if_pos hp, if_pos hp,
      getD_of_zipWith _ _ _ _ _ 0 []
        (by rw [length_maskedSums, length_gatherLogits]; omega) (by omega),
      hms, hsoft]
  · rw [if_neg hp, if_neg hp,
      getD_of_map _ _ _ _ 0 (by rw [length_maskedSums, length_gatherLogits]; omega),
      hms, hsoft]

/-- Concrete cloze fixture with the constructor defaults
(`take_softmax = true`, `length_penalty = 0`); `log_softmax` realized as
`id`, `fpow` as first projection, the language model returning one row
with one position over a two-word vocabulary. -/
def clozeW : ClozeModel (List ℤ) ℤ where
  model := fun _ _ _ => Except.ok ([[[1, 2]]], [])
  take_softmax := true
  length_penalty := 0
  log_softmax := id
  fpow := fun b _ => b

/-- Cloze fixture with `length_penalty = 1`. -/
def clozePW : ClozeModel (List ℤ) ℤ where
  model := fun _ _ _ => Except.ok ([[[1, 2]]], [])
  take_softmax := true
  length_penalty := 1
  log_softmax := id
  fpow := fun b _ => b

/-- Cloze fixture with `length_penalty = 1`, `take_softmax` off, and a
two-position model output. -/
def clozeCex : ClozeModel (List ℤ) ℤ where
  model := fun _ _ _ => Except.ok ([[[2], [4]]], [])
  take_softmax := false
  length_penalty := 1
  log_softmax := id
  fpow := fun b _ => b

/-- Unfolding lemma: when the language model returns, `forward` on 2-D
inputs returns the score pipeline's result and the model's `mems`. -/
theorem forward2_eq {α μ : Type} (m : ClozeModel α μ) (i p : List (List ℤ)) (a : α)
    (t : List (List ℤ)) (k : List (List ℚ)) (o : List (List (List ℚ))) (mems : List μ)
    (hmodel : m.model i p a = Except.ok (o, mems)) :
    m.forward2 i p a t k = Except.ok (m.scores o t k, mems) := by
  simp [ClozeModel.forward2, hmodel]

/-- C1 counterexample: the claim omits the length penalty.  With
`length_penalty = 1` and an all-ones two-position mask the returned score
of row 0 is the normalized `6 / 2 = 3`, not the claim's masked sum `6`. -/
theorem cloze_forward_score_formula_cex :
    clozeCex.forward2 [[0, 0]] [[0, 1]] [0] [[0, 0]] [[1, 1]]
        = Except.ok ([Flt.fin 3], ([] : List ℤ))
      ∧ Flt.fin 3 ≠ Flt.fin
          (((List.range (([[(0 : ℤ), 0]].getD 0 []).length)).map fun pp =>
            ([[(1 : ℚ), 1]].getD 0 []).getD pp 0 *
              ((if clozeCex.take_softmax
                 then clozeCex.log_softmax (([[[(2 : ℚ)], [4]]].getD 0 []).getD pp [])
                 else ([[[(2 : ℚ)], [4]]].getD 0 []).getD pp []).getD
                (([[(0 : ℤ), 0]].getD 0 []).getD pp 0).toNat 0)).sum) := by
  constructor
  · rw [forward2_eq clozeCex _ _ _ _ _ _ _ rfl]
    norm_num [ClozeModel.scores, clozeCex, ClozeModel.softmaxStep, applyPenalty,
      maskedSums, gatherLogits, gatherRow, tindex, fltDiv, List.range_succ]
  · norm_num [clozeCex, List.range_succ]

/-- C1 (amended: `length_penalty = 0`, the constructor default): the score
returned for row `r` of a 2-D call is the sum over the positions `pp` of
`target_ids`' length dimension of `logit_mask[r, pp] * G[r, pp,
target_ids[r, pp]]`, where `G` is the log-softmax of the model output when
`take_softmax` is on and the raw output when it is off. -/
theorem cloze_forward_score_formula {α μ : Type} (m : ClozeModel α μ)
    (i p : List (List ℤ)) (a : α) (t : List (List ℤ)) (k : List (List ℚ))
    (o : List (List (List ℚ))) (mems : List μ) (r : ℕ)
    (hmodel : m.model i p a = Except.ok (o, mems))
    (hlp : m.length_penalty = 0)
    (hls : ∀ x, (m.log_softmax x).length = x.length)
    (ho : o.length = t.length) (hk : k.length = t.length) (hr : r < t.length)
    (hrow : (k.getD r []).length = (t.getD r []).length)
    (hpos : ∀ pp < (t.getD r []).length, pp < (o.getD r []).length)
    (htv : ∀ pp < (t.getD r []).length,
      0 ≤ (t.getD r []).getD pp 0 ∧
        (t.getD r []).getD pp 0 < ((((o.getD r []).getD pp []).length : ℤ))) :
    m.forward2 i p a t k = Except.ok (m.scores o t k, mems) ∧
    (m.scores o t k).getD r Flt.nonfinite
      = Flt.fin (((List.range ((t.getD r []).length)).map fun pp =>
          (k.getD r []).getD pp 0 *
            ((if m.take_softmax
               then m.log_softmax ((o.getD r []).getD pp [])
               else (o.getD r []).getD pp []).getD
              ((t.getD r []).getD pp 0).toNat 0)).sum) := by
  constructor
  · simp [ClozeModel.forward2, hmodel]
  · rw [scores_getD m o t k r ho hk hr]
    simp only [ClozeModel.rowScore]
    have h0 : ¬ (0 < m.length_penalty) := by rw [hlp]; norm_num
    rw [if_neg h0]
    congr 1
    rw [sum_zipWith_mul _ _
      (by rw [gatherRow, List.length_map, List.length_range]; exact hrow.symm), hrow]
    refine congrArg List.sum (List.map_congr_left ?_)
    intro pp hpp
    have hpl := List.mem_range.mp hpp
    have hrowp : (if m.take_softmax then (o.getD r []).map m.log_softmax
        else o.getD r []).getD pp []
        = (if m.take_softmax then m.log_softmax ((o.getD r []).getD pp [])
          else (o.getD r []).getD pp []) := by
      by_cases hts : m.take_softmax
      · rw [if_pos hts, if_pos hts, getD_of_map _ _ _ _ [] (hpos pp hpl)]
      · rw [if_neg hts, if_neg hts]
    rw [gatherRow, getD_range_map _ _ _ _ hpl, hrowp]
    have hb := htv pp hpl
    have hlen2 : (((if m.take_softmax then m.log_softmax ((o.getD r []).getD pp [])
        else (o.getD r []).getD pp []).length : ℤ))
        = ((((o.getD r []).getD pp []).length : ℤ)) := by
      by_cases hts : m.take_softmax
      · rw [if_pos hts]; exact_mod_cast congrArg Nat.cast (hls _)
      · rw [if_neg hts]
    rw [tindex_nonneg _ _ _ hb.1 (by rw [hlen2]; exact hb.2)]

/-- Witness for the amended C1 at a concrete call. -/
theorem cloze_forward_score_formula_witness :
    clozeW.forward2 [[5]] [[0]] [0] [[1]] [[2]]
        = Except.ok (clozeW.scores [[[1, 2]]] [[1]] [[2]], ([] : List ℤ))
      ∧ (clozeW.scores [[[1, 2]]] [[1]] [[2]]).getD 0 Flt.nonfinite
        = Flt.fin (((List.range (([[(1 : ℤ)]].getD 0 []).length)).map fun pp =>
            ([[(2 : ℚ)]].getD 0 []).getD pp 0 *
              ((if clozeW.take_softmax
                 then clozeW.log_softmax (([[[(1 : ℚ), 2]]].getD 0 []).getD pp [])
                 else ([[[(1 : ℚ), 2]]].getD 0 []).getD pp []).getD
                (([[(1 : ℤ)]].getD 0 []).getD pp 0).toNat 0)).sum) :=
  cloze_forward_score_formula clozeW [[5]] [[0]] [0] [[1]] [[2]] [[[1, 2]]] [] 0
    rfl rfl (fun _ => rfl) rfl rfl (by decide) rfl (by decide) (by decide)

/-- C2: length normalization applies exactly when `length_penalty` is
strictly positive.  With `length_penalty ≤ 0` the returned scores are the
unnormalized masked sums (no division); with `length_penalty > 0` row `r`
is the masked sum divided (float division) by
`logit_mask[r].sum() ** length_penalty`. -/
theorem cloze_length_penalty_spec {α μ : Type} (m : ClozeModel α μ)
    (i p : List (List ℤ)) (a : α) (t : List (List ℤ)) (k : List (List ℚ))
    (o : List (List (List ℚ))) (mems : List μ) (r : ℕ)
    (hmodel : m.model i p a = Except.ok (o, mems))
    (hk : k.length = t.length) (hr : r < t.length) :
    (¬ 0 < m.length_penalty →
      m.forward2 i p a t k = Except.ok
        ((maskedSums (gatherLogits (m.softmaxStep o) t) k).map Flt.fin, mems))
    ∧ (0 < m.length_penalty →
      m.forward2 i p a t k = Except.ok (m.scores o t k, mems) ∧
      (m.scores o t k).getD r Flt.nonfinite
        = fltDiv ((maskedSums (gatherLogits (m.softmaxStep o) t) k).getD r 0)
            (m.fpow ((k.getD r []).sum) m.length_penalty)) := by
  constructor
  · intro hnp
    simp [ClozeModel.forward2, hmodel, ClozeModel.scores, applyPenalty, hnp]
  · intro hp
    refine ⟨by simp [ClozeModel.forward2, hmodel], ?_⟩
    rw [ClozeModel.scores, applyPenalty, if_pos hp,
      getD_of_zipWith _ _ _ _ _ 0 []
        (by rw [length_maskedSums, length_gatherLogits]; omega) (by omega)]

/-- Witness for C2: both branches, at concrete calls of the
`length_penalty = 0` and `length_penalty = 1` fixtures. -/
theorem cloze_length_penalty_spec_witness :
    (clozeW.forward2 [[5]] [[0]] [0] [[1]] [[2]]
      = Except.ok ((maskedSums (gatherLogits (clozeW.softmaxStep [[[1, 2]]]) [[1]])
          [[2]]).map Flt.fin, ([] : List ℤ)))
    ∧ ((clozePW.scores [[[1, 2]]] [[1]] [[2]]).getD 0 Flt.nonfinite
        = fltDiv ((maskedSums (gatherLogits (clozePW.softmaxStep [[[1, 2]]]) [[1]])
            [[2]]).getD 0 0) (clozePW.fpow (([(2 : ℚ)].sum)) clozePW.length_penalty)) :=
  ⟨(cloze_length_penalty_spec clozeW [[5]] [[0]] [0] [[1]] [[2]] [[[1, 2]]] [] 0
      rfl rfl (by decide)).1 (by simp [clozeW]),
   ((cloze_length_penalty_spec clozePW [[5]] [[0]] [0] [[1]] [[2]] [[[1, 2]]] [] 0
      rfl rfl (by decide)).2 (by simp [clozePW])).2⟩

/-- C9: with `length_penalty > 0` and a row whose `logit_mask` sums to 0,
the divisor `0 ** length_penalty` is `0` and the unguarded division yields
a non-finite float for that row; the call itself still succeeds (no
exception). -/
theorem cloze_zero_mask_nonfinite {α μ : Type} (m : ClozeModel α μ)
    (i p : List (List ℤ)) (a : α) (t : List (List ℤ)) (k : List (List ℚ))
    (o : List (List (List ℚ))) (mems : List μ) (r : ℕ)
    (hmodel : m.model i p a = Except.ok (o, mems))
    (hp : 0 < m.length_penalty)
    (hfpow : m.fpow 0 m.length_penalty = 0)
    (hk : k.length = t.length) (hr : r < t.length)
    (hzero : (k.getD r []).sum = 0) :
    m.forward2 i p a t k = Except.ok (m.scores o t k, mems) ∧
    (m.scores o t k).getD r Flt.nonfinite = Flt.nonfinite := by
  refine ⟨by simp [ClozeModel.forward2, hmodel], ?_⟩
  rw [ClozeModel.scores, applyPenalty, if_pos hp,
    getD_of_zipWith _ _ _ _ _ 0 []
      (by rw [length_maskedSums, length_gatherLogits]; omega) (by omega),
    hzero, hfpow]
  simp [fltDiv]

/-- Witness for C9: a zero mask row under `length_penalty = 1`. -/
theorem cloze_zero_mask_nonfinite_witness :
    clozePW.forward2 [[5]] [[0]] [0] [[1]] [[0]]
        = Except.ok (clozePW.scores [[[1, 2]]] [[1]] [[0]], ([] : List ℤ))
      ∧ (clozePW.scores [[[1, 2]]] [[1]] [[0]]).getD 0 Flt.nonfinite = Flt.nonfinite :=
  cloze_zero_mask_nonfinite clozePW [[5]] [[0]] [0] [[1]] [[0]] [[[1, 2]]] [] 0
    rfl (by simp [clozePW]) rfl rfl (by decide) (by simp)

/-- Verbalizer fixture: one row, two positions, two-word vocabulary,
auxiliary state `[7]`. -/
def verbW : VerbalizerModel ℤ where
  model := fun _ _ _ => Except.ok ([[[1, 2], [3, 4]]], [7])

/-- C4: on a 2-D call the primary result has shape `[B, num_candidates]`
and entry `[r, j]` is the model output at batch row `r`, sequence position
`attention_mask[r]`, vocabulary index `target_ids[r, j]`; `attention_mask`
acts as a per-row position index and `logit_mask` has no effect. -/
theorem verbalizer_forward_spec {μ : Type} (m : VerbalizerModel μ)
    (rows p : List (List ℤ)) (a : List ℤ) (t : List (List ℤ)) (k k2 : List (List ℚ))
    (o : List (List (List ℚ))) (mems : List μ) (r j : ℕ)
    (hmodel : m.model rows p a = Except.ok (o, mems))
    (hB : o.length = rows.length) (ht : t.length = o.length)
    (hr : r < t.length) (hj : j < (t.getD r []).length)
    (ha : 0 ≤ a.getD r 0 ∧ a.getD r 0 < ((o.getD r []).length : ℤ))
    (htj : 0 ≤ (t.getD r []).getD j 0 ∧
      (t.getD r []).getD j 0
        < (((o.getD r []).getD ((a.getD r 0).toNat) []).length : ℤ)) :
    m.forward (.d2 rows) p a t k = Except.ok (verbOutput o a t, mems)
    ∧ m.forward (.d2 rows) p a t k = m.forward (.d2 rows) p a t k2
    ∧ (verbOutput o a t).length = rows.length
    ∧ ((verbOutput o a t).getD r []).length = (t.getD r []).length
    ∧ ((verbOutput o a t).getD r []).getD j 0
        = ((o.getD r []).getD ((a.getD r 0).toNat) []).getD
            (((t.getD r []).getD j 0).toNat) 0 := by
  have hro : r < o.length := by omega
  refine ⟨by simp [VerbalizerModel.forward, hmodel], rfl, ?_, ?_, ?_⟩
  · simp only [verbOutput, List.length_map, List.length_range]
    omega
  · simp only [verbOutput]
    rw [getD_range_map _ _ _ _ hr, List.length_map, List.length_range]
  · simp only [verbOutput]
    rw [getD_range_map _ _ _ _ hr, getD_range_map _ _ _ _ hj,
      getD_range_map _ _ _ _ hro, tindex_nonneg _ _ _ ha.1 ha.2,
      tindex_nonneg _ _ _ htj.1 htj.2]

/-- Witness for C4 at a concrete call (position index 1, candidate 1,
and a changed `logit_mask` leaving the result untouched). -/
theorem verbalizer_forward_spec_witness :
    verbW.forward (.d2 [[9, 9]]) [[0, 1]] [1] [[0, 1]] [[1, 1]]
        = Except.ok (verbOutput [[[1, 2], [3, 4]]] [1] [[0, 1]], ([7] : List ℤ))
    ∧ verbW.forward (.d2 [[9, 9]]) [[0, 1]] [1] [[0, 1]] [[1, 1]]
        = verbW.forward (.d2 [[9, 9]]) [[0, 1]] [1] [[0, 1]] [[5, 5]]
    ∧ (verbOutput [[[1, 2], [3, 4]]] [1] [[0, 1]]).length = [[(9 : ℤ), 9]].length
    ∧ ((verbOutput [[[1, 2], [3, 4]]] [1] [[0, 1]]).getD 0 []).length
        = ([[(0 : ℤ), 1]].getD 0 []).length
    ∧ ((verbOutput [[[1, 2], [3, 4]]] [1] [[0, 1]]).getD 0 []).getD 1 0
        = (([[[(1 : ℚ), 2], [3, 4]]].getD 0 []).getD ((1 : ℤ)).toNat []).getD
            ((([[(0 : ℤ), 1]].getD 0 []).getD 1 0).toNat) 0 :=
  verbalizer_forward_spec verbW [[9, 9]] [[0, 1]] [1] [[0, 1]] [[1, 1]] [[5, 5]]
    [[[1, 2], [3, 4]]] [7] 0 1 rfl rfl rfl (by decide) (by decide) (by decide) (by decide)

/-- Unfolding lemma: a 2-D `PoolingModel.forward` call with a successful
model call and pool selection returns the head's logits and the mems. -/
theorem poolforward2_eq {μ : Type} (m : PoolingModel μ) (i p : List (List ℤ))
    (a : List ℤ) (o : List (List (List ℚ))) (mems : List μ) (pooled : List (List ℚ))
    (hmodel : m.model i p a = Except.ok (o, mems))
    (hsel : poolSelect m.pool_token o a = Except.ok pooled) :
    m.forward (.two i p a) = Except.ok (m.head pooled, mems) := by
  simp [PoolingModel.forward, hmodel, hsel]

/-- Row `r` of the classifier head: final linear layer applied to the
dropout-masked `tanh` of the projection of the pooled vector. -/
theorem head_getD {μ : Type} (m : PoolingModel μ) (pooled : List (List ℚ)) (r : ℕ)
    (hr : r < pooled.length) (hd : r < m.dropout_mask.length) :
    (m.head pooled).getD r []
      = linear m.head_w m.head_b (List.zipWith (fun x y => x * y)
          ((linear m.pool_layer_w m.pool_layer_b (pooled.getD r [])).map m.tanh)
          (m.dropout_mask.getD r [])) := by
  simp only [PoolingModel.head]
  rw [getD_of_map _ _ _ _ [] (by rw [List.length_zipWith, List.length_map]; omega),
    getD_of_zipWith _ _ _ _ _ [] [] (by rw [List.length_map]; omega) hd,
    getD_of_map _ _ _ _ [] hr]

/-- C5: pooled-vector selection per `pool_token` — `start` takes the
hidden vector at position `attention_mask[r]`, `pad` at
`attention_mask[r] - 1`, `cls` at position 0 — and the classifier logits
are the projection, `tanh`, dropout and final head applied to it. -/
theorem pooling_forward_pool_spec {μ : Type} (m : PoolingModel μ)
    (i p : List (List ℤ)) (a : List ℤ) (o : List (List (List ℚ)))
    (mems : List μ) (r : ℕ)
    (hmodel : m.model i p a = Except.ok (o, mems))
    (hr : r < o.length) (hd : r < m.dropout_mask.length) :
    (m.pool_token = "start" →
      0 ≤ a.getD r 0 → a.getD r 0 < ((o.getD r []).length : ℤ) →
      m.forward (.two i p a) = Except.ok (m.head (startPooled o a), mems)
      ∧ (m.head (startPooled o a)).getD r []
        = linear m.head_w m.head_b (List.zipWith (fun x y => x * y)
            ((linear m.pool_layer_w m.pool_layer_b
              ((o.getD r []).getD ((a.getD r 0).toNat) [])).map m.tanh)
            (m.dropout_mask.getD r [])))
    ∧ (m.pool_token = "pad" →
      0 ≤ a.getD r 0 - 1 → a.getD r 0 - 1 < ((o.getD r []).length : ℤ) →
      m.forward (.two i p a) = Except.ok (m.head (padPooled o a), mems)
      ∧ (m.head (padPooled o a)).getD r []
        = linear m.head_w m.head_b (List.zipWith (fun x y => x * y)
            ((linear m.pool_layer_w m.pool_layer_b
              ((o.getD r []).getD ((a.getD r 0 - 1).toNat) [])).map m.tanh)
            (m.dropout_mask.getD r [])))
    ∧ (m.pool_token = "cls" →
      m.forward (.two i p a) = Except.ok (m.head (clsPooled o), mems)
      ∧ (m.head (clsPooled o)).getD r []
        = linear m.head_w m.head_b (List.zipWith (fun x y => x * y)
            ((linear m.pool_layer_w m.pool_layer_b
              ((o.getD r []).getD 0 [])).map m.tanh)
            (m.dropout_mask.getD r []))) := by
  refine ⟨?_, ?_, ?_⟩
  · intro hpt h0 h1
    have hsel : poolSelect m.pool_token o a = Except.ok (startPooled o a) := by
      rw [poolSelect, hpt, if_pos rfl]
    refine ⟨poolforward2_eq m i p a o mems _ hmodel hsel, ?_⟩
    rw [head_getD m _ r (by simpa [startPooled] using hr) hd, startPooled,
      getD_range_map _ _ _ _ hr, tindex_nonneg _ _ _ h0 h1]
  · intro hpt h0 h1
    have hsel : poolSelect m.pool_token o a = Except.ok (padPooled o a) := by
      rw [poolSelect, hpt, if_neg (by decide), if_pos rfl]
    refine ⟨poolforward2_eq m i p a o mems _ hmodel hsel, ?_⟩
    rw [head_getD m _ r (by simpa [padPooled] using hr) hd, padPooled,
      getD_range_map _ _ _ _ hr, tindex_nonneg _ _ _ h0 h1]
  · intro hpt
    have hsel : poolSelect m.pool_token o a = Except.ok (clsPooled o) := by
      rw [poolSelect, hpt, if_neg (by decide), if_neg (by decide), if_pos rfl]
    refine ⟨poolforward2_eq m i p a o mems _ hmodel hsel, ?_⟩
    rw [head_getD m _ r (by simpa [clsPooled] using hr) hd, clsPooled,
      getD_of_map _ _ _ _ [] hr]

/-- Pooling fixture, `pool_token = "start"`: identity projection weights,
`tanh` realized as `id`, all-ones dropout mask, auxiliary state `[5]`. -/
def poolStartW : PoolingModel ℤ where
  model := fun _ _ _ => Except.ok ([[[1, 2], [3, 4]]], [5])
  pool_token := "start"
  num_class := 1
  pool_layer_w := [[1, 0], [0, 1]]
  pool_layer_b := [0, 0]
  head_w := [[1, 1]]
  head_b := [0]
  tanh := id
  dropout_mask := [[1, 1]]

/-- Pooling fixture, `pool_token = "pad"`. -/
def poolPadW : PoolingModel ℤ where
  model := fun _ _ _ => Except.ok ([[[1, 2], [3, 4]]], [5])
  pool_token := "pad"
  num_class := 1
  pool_layer_w := [[1, 0], [0, 1]]
  pool_layer_b := [0, 0]
  head_w := [[1, 1]]
  head_b := [0]
  tanh := id
  dropout_mask := [[1, 1]]

/-- Pooling fixture, `pool_token = "cls"`. -/
def poolClsW : PoolingModel ℤ where
  model := fun _ _ _ => Except.ok ([[[1, 2], [3, 4]]], [5])
  pool_token := "cls"
  num_class := 1
  pool_layer_w := [[1, 0], [0, 1]]
  pool_layer_b := [0, 0]
  head_w := [[1, 1]]
  head_b := [0]
  tanh := id
  dropout_mask := [[1, 1]]

/-- Witness for C5: all three pool modes at concrete calls. -/
theorem pooling_forward_pool_spec_witness :
    (poolStartW.forward (.two [[1]] [[0]] [1])
        = Except.ok (poolStartW.head (startPooled [[[(1 : ℚ), 2], [3, 4]]] [1]), ([5] : List ℤ))
      ∧ (poolStartW.head (startPooled [[[(1 : ℚ), 2], [3, 4]]] [1])).getD 0 []
        = linear poolStartW.head_w poolStartW.head_b (List.zipWith (fun x y => x * y)
            ((linear poolStartW.pool_layer_w poolStartW.pool_layer_b
              (([[[(1 : ℚ), 2], [3, 4]]].getD 0 []).getD ((([(1 : ℤ)].getD 0 0)).toNat) [])).map
                poolStartW.tanh)
            (poolStartW.dropout_mask.getD 0 [])))
    ∧ (poolPadW.forward (.two [[1]] [[0]] [1])
        = Except.ok (poolPadW.head (padPooled [[[(1 : ℚ), 2], [3, 4]]] [1]), ([5] : List ℤ))
      ∧ (poolPadW.head (padPooled [[[(1 : ℚ), 2], [3, 4]]] [1])).getD 0 []
        = linear poolPadW.head_w poolPadW.head_b (List.zipWith (fun x y => x * y)
            ((linear poolPadW.pool_layer_w poolPadW.pool_layer_b
              (([[[(1 : ℚ), 2], [3, 4]]].getD 0 []).getD ((([(1 : ℤ)].getD 0 0) - 1).toNat) [])).map
                poolPadW.tanh)
            (poolPadW.dropout_mask.getD 0 [])))
    ∧ (poolClsW.forward (.two [[1]] [[0]] [1])
        = Except.ok (poolClsW.head (clsPooled [[[(1 : ℚ), 2], [3, 4]]]), ([5] : List ℤ))
      ∧ (poolClsW.head (clsPooled [[[(1 : ℚ), 2], [3, 4]]])).getD 0 []
        = linear poolClsW.head_w poolClsW.head_b (List.zipWith (fun x y => x * y)
            ((linear poolClsW.pool_layer_w poolClsW.pool_layer_b
              (([[[(1 : ℚ), 2], [3, 4]]].getD 0 []).getD 0 [])).map poolClsW.tanh)
            (poolClsW.dropout_mask.getD 0 []))) :=
  ⟨(pooling_forward_pool_spec poolStartW [[1]] [[0]] [1] [[[(1 : ℚ), 2], [3, 4]]] [5] 0
      rfl (by decide) (by decide)).1 rfl (by decide) (by decide),
   (pooling_forward_pool_spec poolPadW [[1]] [[0]] [1] [[[(1 : ℚ), 2], [3, 4]]] [5] 0
      rfl (by decide) (by decide)).2.1 rfl (by decide) (by decide),
   (pooling_forward_pool_spec poolClsW [[1]] [[0]] [1] [[[(1 : ℚ), 2], [3, 4]]] [5] 0
      rfl (by decide) (by decide)).2.2 rfl⟩

/-- C10: `pad` pooling at a row whose `attention_mask` entry is 0 computes
index `-1`, which wraps around to the last sequence position; the call
succeeds (no out-of-bounds failure) and the pooled vector is the hidden
vector of the last position. -/
theorem pooling_pad_zero_index_wraps {μ : Type} (m : PoolingModel μ)
    (i p : List (List ℤ)) (a : List ℤ) (o : List (List (List ℚ)))
    (mems : List μ) (r : ℕ)
    (hmodel : m.model i p a = Except.ok (o, mems))
    (hpt : m.pool_token = "pad") (hr : r < o.length)
    (ha : a.getD r 0 = 0) (hne : o.getD r [] ≠ []) :
    m.forward (.two i p a) = Except.ok (m.head (padPooled o a), mems)
    ∧ (padPooled o a).getD r [] = (o.getD r []).getLastD [] := by
  have hsel : poolSelect m.pool_token o a = Except.ok (padPooled o a) := by
    rw [poolSelect, hpt, if_neg (by decide), if_pos rfl]
  refine ⟨poolforward2_eq m i p a o mems _ hmodel hsel, ?_⟩
  rw [padPooled, getD_range_map _ _ _ _ hr, ha]
  have hm1 : (0 : ℤ) - 1 = -1 := by decide
  rw [hm1, tindex_neg_one _ _ hne]

/-- Witness for C10: mask entry 0 pools the last position's vector. -/
theorem pooling_pad_zero_index_wraps_witness :
    poolPadW.forward (.two [[1]] [[0]] [0])
        = Except.ok (poolPadW.head (padPooled [[[(1 : ℚ), 2], [3, 4]]] [0]), ([5] : List ℤ))
    ∧ (padPooled [[[(1 : ℚ), 2], [3, 4]]] [0]).getD 0 []
        = ([[[(1 : ℚ), 2], [3, 4]]].getD 0 []).getLastD [] :=
  pooling_pad_zero_index_wraps poolPadW [[1]] [[0]] [0] [[[(1 : ℚ), 2], [3, 4]]] [5] 0
    rfl rfl (by decide) rfl (by decide)

/-- Pooling fixture whose language model itself raises, with an
unrecognized `pool_token`. -/
def poolBad : PoolingModel ℤ where
  model := fun _ _ _ => Except.error (PyErr.external 0)
  pool_token := "middle"
  num_class := 1
  pool_layer_w := []
  pool_layer_b := []
  head_w := []
  head_b := []
  tanh := id
  dropout_mask := []

/-- C6 counterexample: with `pool_token = "middle"` and a language model
that itself raises, the call surfaces the model's error, not
`NotImplementedError` — so the unknown-token failure does not happen
before the language model is invoked. -/
theorem pooling_unknown_pool_token_cex :
    poolBad.forward (.two [[0]] [[0]] [0]) = Except.error (PyErr.external 0)
    ∧ (Except.error (PyErr.external 0) :
          Except PyErr (List (List ℚ) × List ℤ))
      ≠ Except.error PyErr.notImplementedError :=
  ⟨rfl, by simp⟩

/-- C6 (amended): with an unrecognized `pool_token` a 2-D `forward` call
fails with `NotImplementedError`, but only after the language model has
been invoked: the result is exactly the model call followed by the raise,
so a model-side error propagates instead of the `NotImplementedError`. -/
theorem pooling_unknown_pool_token {μ : Type} (m : PoolingModel μ)
    (i p : List (List ℤ)) (a : List ℤ)
    (h1 : m.pool_token ≠ "start") (h2 : m.pool_token ≠ "pad")
    (h3 : m.pool_token ≠ "cls") :
    m.forward (.two i p a)
      = Except.bind (m.model i p a) (fun _ => Except.error PyErr.notImplementedError) := by
  cases h : m.model i p a with
  | error e => simp [PoolingModel.forward, h, Except.bind]
  | ok om =>
    obtain ⟨o, mems⟩ := om
    simp [PoolingModel.forward, h, poolSelect, h1, h2, h3, Except.bind]

/-- Witness for the amended C6 at a concrete call. -/
theorem pooling_unknown_pool_token_witness :
    poolBad.forward (.two [[0]] [[0]] [0])
      = Except.bind (poolBad.model [[0]] [[0]] [0])
          (fun _ => Except.error PyErr.notImplementedError) :=
  pooling_unknown_pool_token poolBad [[0]] [[0]] [0]
    (by decide) (by decide) (by decide)

/-- Pooling fixture with `num_class = 2`. -/
def poolNC2 : PoolingModel ℤ where
  model := fun _ _ _ => Except.ok ([], [])
  pool_token := "cls"
  num_class := 2
  pool_layer_w := []
  pool_layer_b := []
  head_w := []
  head_b := []
  tanh := id
  dropout_mask := []

/-- C7: the rank-2 assert of `VerbalizerModel.forward` rejects a 3-D
`input_ids`, and the `num_class == 1` assert of `PoolingModel.forward`
rejects a 3-D input when `num_class ≠ 1`; both fail for every language
model (so before, and independently of, the model call) and produce no
result. -/
theorem precondition_asserts {μ : Type} (vm : VerbalizerModel μ) (pm : PoolingModel μ)
    (c : List (List (List ℤ))) (p2 : List (List ℤ)) (a2 : List ℤ)
    (t : List (List ℤ)) (k : List (List ℚ))
    (i3 p3 : List (List (List ℤ))) (a3 : List (List ℤ))
    (hnc : pm.num_class ≠ 1) :
    vm.forward (.d3 c) p2 a2 t k = Except.error PyErr.assertionError
    ∧ pm.forward (.three i3 p3 a3) = Except.error PyErr.assertionError :=
  ⟨rfl, by simp [PoolingModel.forward, hnc]⟩

/-- Witness for C7 at concrete calls. -/
theorem precondition_asserts_witness :
    verbW.forward (.d3 [[[1]]]) [[0]] [0] [[0]] [[1]] = Except.error PyErr.assertionError
    ∧ poolNC2.forward (.three [[[1]]] [[[0]]] [[0]]) = Except.error PyErr.assertionError :=
  precondition_asserts verbW poolNC2 [[[1]]] [[0]] [0] [[0]] [[1]] [[[1]]] [[[0]]] [[0]]
    (by decide)

/-- Cloze fixture with non-trivial auxiliary state `[3, 4]`. -/
def clozeMems : ClozeModel (List ℤ) ℤ where
  model := fun _ _ _ => Except.ok ([[[1, 2]]], [3, 4])
  take_softmax := true
  length_penalty := 0
  log_softmax := id
  fpow := fun b _ => b

/-- C8: all three components return the language model's auxiliary state
unchanged, element for element and in order, in both the 2-D and the 3-D
input paths, for every configuration of their other flags. -/
theorem aux_state_passthrough {α δ μ : Type} (mc : ClozeModel α μ)
    (mc3 : ClozeModel (List δ) μ) (vm : VerbalizerModel μ) (pm : PoolingModel μ)
    (i2 p2 : List (List ℤ)) (a2 : α) (t2 : List (List ℤ)) (k2 : List (List ℚ))
    (i3 p3 : List (List (List ℤ))) (a3 : List (List δ))
    (t3 : List (List (List ℤ))) (k3 : List (List (List ℚ)))
    (iv pv : List (List ℤ)) (av : List ℤ) (tv : List (List ℤ)) (kv : List (List ℚ))
    (ib pb : List (List ℤ)) (ab : List ℤ)
    (ic pc : List (List (List ℤ))) (ac : List (List ℤ))
    (o1 o2 o3 o4 o5 : List (List (List ℚ))) (ms1 ms2 ms3 ms4 ms5 : List μ)
    (pooled4 pooled5 : List (List ℚ))
    (h1 : mc.model i2 p2 a2 = Except.ok (o1, ms1))
    (h2 : mc3.model i3.flatten p3.flatten a3.flatten = Except.ok (o2, ms2))
    (h3 : vm.model iv pv av = Except.ok (o3, ms3))
    (h4 : pm.model ib pb ab = Except.ok (o4, ms4))
    (h5 : pm.model ic.flatten pc.flatten ac.flatten = Except.ok (o5, ms5))
    (h4s : poolSelect pm.pool_token o4 ab = Except.ok pooled4)
    (h5s : poolSelect pm.pool_token o5 ac.flatten = Except.ok pooled5)
    (hnc : pm.num_class = 1) :
    mc.forward2 i2 p2 a2 t2 k2 = Except.ok (mc.scores o1 t2 k2, ms1)
    ∧ mc3.forward3 i3 p3 a3 t3 k3
        = Except.ok (view2 ((i3.headD []).length)
            (mc3.scores o2 t3.flatten k3.flatten), ms2)
    ∧ vm.forward (.d2 iv) pv av tv kv = Except.ok (verbOutput o3 av tv, ms3)
    ∧ pm.forward (.two ib pb ab) = Except.ok (pm.head pooled4, ms4)
    ∧ pm.forward (.three ic pc ac)
        = Except.ok (view2 ((ic.headD []).length) (pm.head pooled5).flatten, ms5) := by
  refine ⟨forward2_eq mc i2 p2 a2 t2 k2 o1 ms1 h1, ?_, ?_,
    poolforward2_eq pm ib pb ab o4 ms4 pooled4 h4 h4s, ?_⟩
  · simp [ClozeModel.forward3, forward2_eq mc3 i3.flatten p3.flatten a3.flatten
      t3.flatten k3.flatten o2 ms2 h2]
  · simp [VerbalizerModel.forward, h3]
  · simp [PoolingModel.forward, hnc, h5, h5s]

/-- Witness for C8 at concrete calls of all five paths. -/
theorem aux_state_passthrough_witness :
    clozeMems.forward2 [[1]] [[0]] [0] [[0]] [[1]]
        = Except.ok (clozeMems.scores [[[(1 : ℚ), 2]]] [[0]] [[1]], ([3, 4] : List ℤ))
    ∧ clozeMems.forward3 [[[1]]] [[[0]]] [[0]] [[[0]]] [[[1]]]
        = Except.ok (view2 (([[[(1 : ℤ)]]].headD []).length)
            (clozeMems.scores [[[(1 : ℚ), 2]]] [[[(0 : ℤ)]]].flatten [[[(1 : ℚ)]]].flatten),
            ([3, 4] : List ℤ))
    ∧ verbW.forward (.d2 [[1]]) [[0]] [0] [[0]] [[1]]
        = Except.ok (verbOutput [[[(1 : ℚ), 2], [3, 4]]] [0] [[0]], ([7] : List ℤ))
    ∧ poolClsW.forward (.two [[1]] [[0]] [0])
        = Except.ok (poolClsW.head (clsPooled [[[(1 : ℚ), 2], [3, 4]]]), ([5] : List ℤ))
    ∧ poolClsW.forward (.three [[[1]]] [[[0]]] [[0]])
        = Except.ok (view2 (([[[(1 : ℤ)]]].headD []).length)
            (poolClsW.head (clsPooled [[[(1 : ℚ), 2], [3, 4]]])).flatten, ([5] : List ℤ)) :=
  aux_state_passthrough clozeMems clozeMems verbW poolClsW
    [[1]] [[0]] [0] [[0]] [[1]]
    [[[1]]] [[[0]]] [[0]] [[[0]]] [[[1]]]
    [[1]] [[0]] [0] [[0]] [[1]]
    [[1]] [[0]] [0]
    [[[1]]] [[[0]]] [[0]]
    [[[1, 2]]] [[[1, 2]]] [[[1, 2], [3, 4]]] [[[1, 2], [3, 4]]] [[[1, 2], [3, 4]]]
    [3, 4] [3, 4] [7] [5] [5]
    (clsPooled [[[1, 2], [3, 4]]]) (clsPooled [[[1, 2], [3, 4]]])
    rfl rfl rfl rfl rfl rfl rfl rfl

/-- C3: for 3-D inputs `[B, C, L]` and a language model that computes each
output row from the corresponding input row only (`zipWith3 f` plus
arbitrary auxiliary state `g`), the `[B, C]` score matrix of `forward`
equals the result of scoring each choice `c` independently as a 2-D batch
(column `c` of every 3-D input) and stacking: it has `B` rows of length
`C`, and entry `[b, c]` equals entry `b` of the choice-`c` scores. -/
theorem cloze_choice_independence {δ μ : Type}
    (f : List ℤ → List ℤ → δ → List (List ℚ))
    (g : List (List ℤ) → List (List ℤ) → List δ → List μ)
    (m : ClozeModel (List δ) μ)
    (hmodel : ∀ I P A, m.model I P A = Except.ok (zipWith3 f I P A, g I P A))
    (i3 p3 : List (List (List ℤ))) (a3 : List (List δ))
    (t3 : List (List (List ℤ))) (k3 : List (List (List ℚ)))
    (B C b c : ℕ) (dA : δ)
    (hC : 0 < C) (hb : b < B) (hc : c < C)
    (hiB : i3.length = B) (hpB : p3.length = B) (haB : a3.length = B)
    (htB : t3.length = B) (hkB : k3.length = B)
    (hiC : ∀ row ∈ i3, row.length = C) (hpC : ∀ row ∈ p3, row.length = C)
    (haC : ∀ row ∈ a3, row.length = C) (htC : ∀ row ∈ t3, row.length = C)
    (hkC : ∀ row ∈ k3, row.length = C) :
    m.forward3 i3 p3 a3 t3 k3
      = Except.ok (view2 C (m.scores (zipWith3 f i3.flatten p3.flatten a3.flatten)
          t3.flatten k3.flatten), g i3.flatten p3.flatten a3.flatten)
    ∧ (view2 C (m.scores (zipWith3 f i3.flatten p3.flatten a3.flatten)
        t3.flatten k3.flatten)).length = B
    ∧ ((view2 C (m.scores (zipWith3 f i3.flatten p3.flatten a3.flatten)
        t3.flatten k3.flatten)).getD b []).length = C
    ∧ m.forward2 (col c [] i3) (col c [] p3) (col c dA a3) (col c [] t3) (col c [] k3)
        = Except.ok (m.scores (zipWith3 f (col c [] i3) (col c [] p3) (col c dA a3))
            (col c [] t3) (col c [] k3), g (col c [] i3) (col c [] p3) (col c dA a3))
    ∧ ((view2 C (m.scores (zipWith3 f i3.flatten p3.flatten a3.flatten)
          t3.flatten k3.flatten)).getD b []).getD c Flt.nonfinite
        = (m.scores (zipWith3 f (col c [] i3) (col c [] p3) (col c dA a3))
            (col c [] t3) (col c [] k3)).getD b Flt.nonfinite := by
  have hIl : i3.flatten.length = B * C := by rw [length_flatten_rect i3 C hiC, hiB]
  have hPl : p3.flatten.length = B * C := by rw [length_flatten_rect p3 C hpC, hpB]
  have hAl : a3.flatten.length = B * C := by rw [length_flatten_rect a3 C haC, haB]
  have hTl : t3.flatten.length = B * C := by rw [length_flatten_rect t3 C htC, htB]
  have hKl : k3.flatten.length = B * C := by rw [length_flatten_rect k3 C hkC, hkB]
  have hOl : (zipWith3 f i3.flatten p3.flatten a3.flatten).length = B * C := by
    rw [length_zipWith3, hIl, hPl, hAl]; omega
  have hSl : (m.scores (zipWith3 f i3.flatten p3.flatten a3.flatten)
      t3.flatten k3.flatten).length = B * C := by
    rw [length_scores _ _ _ _ (by omega), hTl]
  have hbc : b * C + c < B * C := by
    have h1 : b * C + c < (b + 1) * C := by rw [Nat.succ_mul]; omega
    have h2 : (b + 1) * C ≤ B * C := Nat.mul_le_mul_right C (by omega)
    omega
  have hnum : (i3.headD []).length = C := headD_length_rect i3 C hiC (by omega)
  have hnum2 : (i3.head?.getD []).length = C := by
    cases i3 with
    | nil => simpa using hnum
    | cons x xt => simpa using hnum
  have hcI : (col c ([] : List ℤ) i3).length = B := by simp [col, hiB]
  have hcP : (col c ([] : List ℤ) p3).length = B := by simp [col, hpB]
  have hcA : (col c dA a3).length = B := by simp [col, haB]
  have hcT : (col c ([] : List ℤ) t3).length = B := by simp [col, htB]
  have hcK : (col c ([] : List ℚ) k3).length = B := by simp [col, hkB]
  have hcO : (zipWith3 f (col c [] i3) (col c [] p3) (col c dA a3)).length = B := by
    rw [length_zipWith3, hcI, hcP, hcA]; omega
  refine ⟨?_, ?_, ?_, ?_, ?_⟩
  · simp [ClozeModel.forward3, forward2_eq m i3.flatten p3.flatten a3.flatten
      t3.flatten k3.flatten _ _ (hmodel _ _ _), hnum2]
  · rw [view2_length, hSl, Nat.mul_div_cancel _ hC]
  · exact view2_row_length C _ b (by rw [hSl, Nat.mul_div_cancel _ hC]; exact hb)
  · exact forward2_eq m _ _ _ _ _ _ _ (hmodel _ _ _)
  · rw [view2_getD_getD C _ b c Flt.nonfinite
        (by rw [hSl, Nat.mul_div_cancel _ hC]; exact hb) hc,
      scores_getD m _ _ _ (b * C + c) (by rw [hOl, hTl]) (by rw [hKl, hTl])
        (by rw [hTl]; exact hbc),
      getD_zipWith3 f i3.flatten p3.flatten a3.flatten (b * C + c) [] [] [] dA
        (by rw [hIl]; exact hbc) (by rw [hPl]; exact hbc) (by rw [hAl]; exact hbc),
      getD_flatten_rect i3 C [] hiC b c (by rw [hiB]; exact hb) hc,
      getD_flatten_rect p3 C [] hpC b c (by rw [hpB]; exact hb) hc,
      getD_flatten_rect a3 C dA haC b c (by rw [haB]; exact hb) hc,
      getD_flatten_rect t3 C [] htC b c (by rw [htB]; exact hb) hc,
      getD_flatten_rect k3 C [] hkC b c (by rw [hkB]; exact hb) hc,
      scores_getD m _ (col c [] t3) (col c [] k3) b (by rw [hcO, hcT])
        (by rw [hcK, hcT]) (by rw [hcT]; exact hb),
      getD_zipWith3 f (col c [] i3) (col c [] p3) (col c dA a3) b [] [] [] dA
        (by rw [hcI]; exact hb) (by rw [hcP]; exact hb) (by rw [hcA]; exact hb),
      col, col, col, col, col,
      getD_of_map _ i3 b [] [] (by rw [hiB]; exact hb),
      getD_of_map _ p3 b [] [] (by rw [hpB]; exact hb),
      getD_of_map _ a3 b dA [] (by rw [haB]; exact hb),
      getD_of_map _ t3 b [] [] (by rw [htB]; exact hb),
      getD_of_map _ k3 b [] [] (by rw [hkB]; exact hb)]

/-- Cloze fixture whose language model is rowwise: every row of the output
is the constant distribution `[1, 2]` over a two-word vocabulary, with
empty auxiliary state. -/
def clozeRowwise : ClozeModel (List ℤ) ℤ where
  model := fun I P A =>
    Except.ok (zipWith3 (fun _ _ _ => [[(1 : ℚ), 2]]) I P A, [])
  take_softmax := true
  length_penalty := 0
  log_softmax := id
  fpow := fun b _ => b

/-- Witness for C3 at a concrete 3-D call with `B = 1`, `C = 2`. -/
theorem cloze_choice_independence_witness :
    clozeRowwise.forward3 [[[1], [2]]] [[[0], [0]]] [[0, 0]] [[[0], [1]]] [[[1], [1]]]
      = Except.ok (view2 2 (clozeRowwise.scores
          (zipWith3 (fun _ _ _ => [[(1 : ℚ), 2]]) [[[(1 : ℤ)], [2]]].flatten
            [[[(0 : ℤ)], [0]]].flatten [[(0 : ℤ), 0]].flatten)
          [[[(0 : ℤ)], [1]]].flatten [[[(1 : ℚ)], [1]]].flatten), ([] : List ℤ))
    ∧ (view2 2 (clozeRowwise.scores
        (zipWith3 (fun _ _ _ => [[(1 : ℚ), 2]]) [[[(1 : ℤ)], [2]]].flatten
          [[[(0 : ℤ)], [0]]].flatten [[(0 : ℤ), 0]].flatten)
        [[[(0 : ℤ)], [1]]].flatten [[[(1 : ℚ)], [1]]].flatten)).length = 1
    ∧ ((view2 2 (clozeRowwise.scores
        (zipWith3 (fun _ _ _ => [[(1 : ℚ), 2]]) [[[(1 : ℤ)], [2]]].flatten
          [[[(0 : ℤ)], [0]]].flatten [[(0 : ℤ), 0]].flatten)
        [[[(0 : ℤ)], [1]]].flatten [[[(1 : ℚ)], [1]]].flatten)).getD 0 []).length = 2
    ∧ clozeRowwise.forward2 (col 1 [] [[[1], [2]]]) (col 1 [] [[[0], [0]]])
        (col 1 (0 : ℤ) [[0, 0]]) (col 1 [] [[[0], [1]]]) (col 1 [] [[[1], [1]]])
      = Except.ok (clozeRowwise.scores
          (zipWith3 (fun _ _ _ => [[(1 : ℚ), 2]]) (col 1 [] [[[(1 : ℤ)], [2]]])
            (col 1 [] [[[(0 : ℤ)], [0]]]) (col 1 (0 : ℤ) [[(0 : ℤ), 0]]))
          (col 1 [] [[[(0 : ℤ)], [1]]]) (col 1 [] [[[(1 : ℚ)], [1]]]), ([] : List ℤ))
    ∧ ((view2 2 (clozeRowwise.scores
          (zipWith3 (fun _ _ _ => [[(1 : ℚ), 2]]) [[[(1 : ℤ)], [2]]].flatten
            [[[(0 : ℤ)], [0]]].flatten [[(0 : ℤ), 0]].flatten)
          [[[(0 : ℤ)], [1]]].flatten [[[(1 : ℚ)], [1]]].flatten)).getD 0 []).getD 1
            Flt.nonfinite
        = (clozeRowwise.scores
            (zipWith3 (fun _ _ _ => [[(1 : ℚ), 2]]) (col 1 [] [[[(1 : ℤ)], [2]]])
              (col 1 [] [[[(0 : ℤ)], [0]]]) (col 1 (0 : ℤ) [[(0 : ℤ), 0]]))
            (col 1 [] [[[(0 : ℤ)], [1]]]) (col 1 [] [[[(1 : ℚ)], [1]]])).getD 0
              Flt.nonfinite :=
  cloze_choice_independence (fun _ _ _ => [[(1 : ℚ), 2]]) (fun _ _ _ => ([] : List ℤ))
    clozeRowwise (fun _ _ _ => rfl) [[[1], [2]]] [[[0], [0]]] [[0, 0]] [[[0], [1]]]
    [[[1], [1]]] 1 2 0 1 0 (by decide) (by decide) (by decide) rfl rfl rfl rfl rfl
    (by decide) (by decide) (by decide) (by decide) (by decide)
